import Mathlib

/-!
Verification of the LISA requirement/capability matching engine.

This file gives a shallow embedding of `NodeSpace` and `EnvironmentSpace`
from `lisa/schema.py` (the requirement/capability checker and the
min-capability generator), together with the pieces of the imported module
`lisa.search_space` that `schema.py` uses (`ResultReason`, `IntRange`,
`check_countspace`, `SetSpace`, `generate_min_capability_countspace`).
The `lisa.search_space` module itself is not part of this repository's
sources, so those definitions are modelled from the specification; they are
marked as such in their doc comments.  Everything else is translated
directly from `lisa/schema.py`.

Python `None` is rendered as `Option.none`; a raised exception
(`AssertionError` / `LisaException`) is rendered as `Except.error`.
String messages follow the source except that apostrophes are written out
("should not" for the source's contraction) to keep the file ASCII-plain.
-/

/-- Modelled from the spec: `lisa.search_space.IntRange` — an inclusive
integer range, `max = none` meaning unbounded above (spec section 3,
"CountSpace"). -/
structure IntRange where
  min : Int
  max : Option Int
deriving Repr, DecidableEq

/-- Modelled from the spec: the value held by a count field — either an
exact integer (Python `int`) or an inclusive range (spec section 3,
"CountSpace"). -/
inductive CSpace where
  | exact (n : Int)
  | range (r : IntRange)
deriving Repr, DecidableEq

/-- A Python `CountSpace` field: `None`, an exact `int`, or an `IntRange`. -/
abbrev CountSpace := Option CSpace

/-- Python truthiness of a `CountSpace` field (`if not capability.node_count`,
`if self.node_count or capability.node_count` in `schema.py`): `None` and the
exact integer `0` are falsy, nonzero integers and every `IntRange` object are
truthy. -/
def CountSpace.isTruthy : CountSpace → Bool
  | none => false
  | some (.exact n) => n != 0
  | some (.range _) => true

/-- Lower bound of a `CSpace`; an exact value is its own bound. -/
def CSpace.minOf : CSpace → Int
  | .exact n => n
  | .range r => r.min

/-- Upper bound of a `CSpace` (`none` = unbounded); an exact value is its own
bound. -/
def CSpace.maxOf : CSpace → Option Int
  | .exact n => some n
  | .range r => r.max

/-- Rendering of a `CSpace` for reason messages. -/
def CSpace.describe : CSpace → String
  | .exact n => toString n
  | .range rg =>
    let lo := rg.min
    match rg.max with
    | some hi => s!"[{lo}..{hi}]"
    | none => s!"[{lo}..]"

/-- `lisa/schema.py` `Feature`: a named boolean capability flag (defaults from
the dataclass: `enabled=True`, `can_disable=False`). -/
structure Feature where
  name : String := ""
  enabled : Bool := true
  can_disable : Bool := false
deriving Repr, DecidableEq

/-- Modelled from the spec: `lisa.search_space.SetSpace[Feature]` — a feature
set tagged as allow (`is_allow_set = true`) or deny (spec section 3,
"FeatureSet").  Elements are kept as a list; `schema.py` only ever adds
distinct elements. -/
structure SetSpace where
  is_allow_set : Bool := true
  items : List Feature := []
deriving Repr, DecidableEq

/-- Names of the features in a set. -/
def SetSpace.featureNames (s : SetSpace) : List String := s.items.map Feature.name

/-- Modelled from the spec: one entry of `ResultReason.reasons` — the dotted
field path accumulated by `merge` and the message text (spec section 6). -/
structure Reason where
  path : List String
  msg : String
deriving Repr, DecidableEq

/-- Modelled from the spec: `lisa.search_space.ResultReason` — a boolean
verdict plus an ordered list of field-path-prefixed reasons (spec section 6). -/
structure ResultReason where
  result : Bool := true
  reasons : List Reason := []
deriving Repr, DecidableEq

/-- Modelled from the spec: `ResultReason.add_reason` — set the verdict to
false and append an un-prefixed reason. -/
def ResultReason.add_reason (r : ResultReason) (msg : String) : ResultReason :=
  { result := false, reasons := r.reasons ++ [⟨[], msg⟩] }

/-- Modelled from the spec: `ResultReason.merge(other, field_name)` —
namespace the sub-result's reasons under `name` and AND the verdicts
(spec section 6). -/
def ResultReason.merge (r : ResultReason) (sub : ResultReason) (name : String) :
    ResultReason :=
  { result := r.result && sub.result,
    reasons := r.reasons ++ sub.reasons.map fun x => ⟨name :: x.path, x.msg⟩ }

/-- Concatenation of two results: AND of verdicts, appended reasons.  Helper
for stating how sequential `add_reason`/`merge` calls accumulate. -/
def ResultReason.append (a b : ResultReason) : ResultReason :=
  { result := a.result && b.result, reasons := a.reasons ++ b.reasons }

/-- A result holding exactly one un-prefixed failing reason, as produced by
`add_reason` on a fresh `ResultReason`. -/
def reason0 (msg : String) : ResultReason :=
  { result := false, reasons := [⟨[], msg⟩] }

/-- A sub-result namespaced under `name`, as produced by merging `sub` into a
fresh `ResultReason` under `name`. -/
def prefixed (sub : ResultReason) (name : String) : ResultReason :=
  { result := sub.result, reasons := sub.reasons.map fun x => ⟨name :: x.path, x.msg⟩ }

/-- Modelled from the spec: `lisa.search_space.check_countspace` (spec
section 4.1).  Both sides exact integers: pass iff capability is at least the
requirement.  Otherwise range coverage: the capability's bounds must cover
the requirement's bounds, an unbounded capability max satisfying anything and
an unbounded requirement max requiring an unbounded capability.  A missing
requirement is unconstrained; a missing capability (against a present
requirement) fails with one reason. -/
def check_countspace (requirement capability : CountSpace) : ResultReason :=
  match requirement with
  | none => {}
  | some req =>
    match capability with
    | none => ResultReason.add_reason {} "capability should not be None"
    | some cap =>
      let ok : Bool :=
        match req, cap with
        | .exact rn, .exact cn => decide (rn ≤ cn)
        | _, _ =>
          decide (cap.minOf ≤ req.minOf) &&
            (match cap.maxOf with
             | none => true
             | some cm =>
               match req.maxOf with
               | none => false
               | some rm => decide (rm ≤ cm))
      if ok then {}
      else
        let rs := req.describe
        let cs := cap.describe
        ResultReason.add_reason {} s!"capability {cs} does not cover requirement {rs}"

/-- Modelled from the spec: `lisa.search_space.check` on feature sets (spec
section 4.2).  A missing requirement set is unconstrained.  An allow-set
requirement passes iff the capability set is absent (platform default) or
every required feature name appears in the capability.  A deny-set
requirement passes iff none of its feature names appears in the capability
set it is checked against. -/
def set_space_check (requirement capability : Option SetSpace) : ResultReason :=
  match requirement with
  | none => {}
  | some req =>
    let capNames := (capability.map SetSpace.featureNames).getD []
    if req.is_allow_set then
      if capability.isNone then {}
      else if req.items.all fun f => capNames.contains f.name then {}
      else ResultReason.add_reason {} "required features are not all supported"
    else
      if req.items.all fun f => !capNames.contains f.name then {}
      else ResultReason.add_reason {} "excluded features cannot be disabled"

/-- Modelled from the spec: `lisa.search_space.generate_min_capability_countspace`
(spec section 4.1) — the smallest `CountSpace` within the capability's bounds
that satisfies the requirement; two exact integers yield the capability's
value unmodified, otherwise the tightened lower bound of the intersection. -/
def generate_min_capability_countspace (requirement capability : CountSpace) :
    CountSpace :=
  match requirement, capability with
  | none, none => none
  | none, some c => some (.exact c.minOf)
  | some r, none => some (.exact r.minOf)
  | some (.exact _), some (.exact cn) => some (.exact cn)
  | some r, some c => some (.exact (max r.minOf c.minOf))

/-- `lisa/schema.py` `NodeSpace` (the compatibility-relevant fields, with the
dataclass field defaults of the source: `IntRange(min=1)` for counts,
`IntRange(min=512)` for memory, `IntRange(min=0)` for GPUs). -/
structure NodeSpace where
  type : String := "requirement"
  name : String := ""
  is_default : Bool := false
  artifact : String := ""
  node_count : CountSpace := some (.range ⟨1, none⟩)
  core_count : CountSpace := some (.range ⟨1, none⟩)
  memory_mb : CountSpace := some (.range ⟨512, none⟩)
  nic_count : CountSpace := some (.range ⟨1, none⟩)
  gpu_count : CountSpace := some (.range ⟨0, none⟩)
  features : Option SetSpace := none
  excluded_features : Option SetSpace := none
deriving Repr, DecidableEq

/-- The allow/deny-tag assertions at the top of `NodeSpace.check`
(lines 379-384 of `lisa/schema.py`): a declared `features` set must be an
allow set and a declared `excluded_features` set must not be. -/
def NodeSpace.tags_ok (self : NodeSpace) : Bool :=
  (match self.features with
   | some f => f.is_allow_set
   | none => true) &&
  (match self.excluded_features with
   | some e => !e.is_allow_set
   | none => true)

/-- Lines 388-394 of `lisa/schema.py`: when the capability declares features
and the requirement declares excluded features, the must-include set is the
capability's features that are enabled and cannot be disabled; `None`
otherwise. -/
def NodeSpace.must_included (self capability : NodeSpace) : Option SetSpace :=
  match capability.features, self.excluded_features with
  | some capf, some _ =>
    some { is_allow_set := true,
           items := capf.items.filter fun f => f.enabled && !f.can_disable }
  | _, _ => none

/-- The guard message of lines 396-404 of `lisa/schema.py` (apostrophe of the
source's contraction written out). -/
def guardMsg : String :=
  "node_count, core_count, memory_mb, nic_count should not be None"

/-- The exact-integer node-count mismatch message of lines 406-411 of
`lisa/schema.py`. -/
def node_count_msg (rn cn : Int) : String :=
  s!"capability node count {cn} must be more than requirement {rn}"

/-- Lines 406-416 of `lisa/schema.py`, the `node_count` block of
`NodeSpace.check`: if both sides are exact integers, add a reason exactly
when the requirement exceeds the capability; otherwise merge the count-space
resolver's verdict under the field name `node_count`. -/
def node_count_block (p q : CountSpace) (res : ResultReason) : ResultReason :=
  match p, q with
  | some (.exact rn), some (.exact cn) =>
    if rn > cn then res.add_reason (node_count_msg rn cn) else res
  | _, _ => res.merge (check_countspace p q) "node_count"

/-- `NodeSpace.check` (lines 374-443 of `lisa/schema.py`).  `Except.error`
models a raised `AssertionError` (the allow/deny-tag asserts and the
`isinstance(capability, NodeSpace)` assert, which a `None` capability fails
even though a reason was added for it first). -/
def NodeSpace.check (self : NodeSpace) (capability : Option NodeSpace) :
    Except String ResultReason :=
  let result : ResultReason := {}
  let result :=
    if capability.isNone then result.add_reason "capability should not be None"
    else result
  if !self.tags_ok then .error "features/excluded_features allow-set assertion"
  else
    match capability with
    | none => .error "assert isinstance(capability, NodeSpace)"
    | some capability =>
      let must_included_capability := self.must_included capability
      let result :=
        if !capability.node_count.isTruthy || !capability.core_count.isTruthy
            || !capability.memory_mb.isTruthy || !capability.nic_count.isTruthy then
          result.add_reason guardMsg
        else result
      let result := node_count_block self.node_count capability.node_count result
      let result :=
        result.merge (check_countspace self.core_count capability.core_count)
          "core_count"
      let result :=
        result.merge (check_countspace self.memory_mb capability.memory_mb)
          "memory_mb"
      let result :=
        result.merge (check_countspace self.nic_count capability.nic_count)
          "nic_count"
      let result :=
        result.merge (check_countspace self.gpu_count capability.gpu_count)
          "gpu_count"
      let result :=
        result.merge (set_space_check self.features capability.features) "features"
      let result :=
        if self.excluded_features.isSome then
          result.merge (set_space_check self.excluded_features must_included_capability)
            "excluded_features"
        else result
      .ok result

/-- Method-call rendering of `NodeSpace.check`: the result together with the
post-call states of `self` and `capability`.  The method body (lines 374-443
of `lisa/schema.py`) assigns only to its locals `result` and
`must_included_capability` and never to a field of `self` or `capability`,
so the post-call states are the arguments themselves. -/
def NodeSpace.check_call (self : NodeSpace) (capability : Option NodeSpace) :
    Except String ResultReason × NodeSpace × Option NodeSpace :=
  (self.check capability, self, capability)

/-- `NodeSpace._generate_min_capability` (lines 468-517 of `lisa/schema.py`).
The Python method mutates `self`: the loop over `self.excluded_features` sets
`enabled = False` on each of its `Feature` objects and adds those same
objects to the result's `features` set.  The embedding therefore returns the
pair (`min_value`, post-call state of `self`); `Except.error` models a raised
`LisaException`. -/
def NodeSpace.generate_min_capability (self capability : NodeSpace) :
    Except String (NodeSpace × NodeSpace) :=
  if self.node_count.isTruthy || capability.node_count.isTruthy then
    let node_count :=
      match self.node_count, capability.node_count with
      | some (.exact _), some (.exact cn) =>
        -- capability can have more node
        some (.exact cn)
      | _, _ =>
        generate_min_capability_countspace self.node_count capability.node_count
    if self.core_count.isTruthy || capability.core_count.isTruthy then
      let core_count :=
        generate_min_capability_countspace self.core_count capability.core_count
      if self.memory_mb.isTruthy || capability.memory_mb.isTruthy then
        let memory_mb :=
          generate_min_capability_countspace self.memory_mb capability.memory_mb
        if self.nic_count.isTruthy || capability.nic_count.isTruthy then
          let nic_count :=
            generate_min_capability_countspace self.nic_count capability.nic_count
          let gpu_count :=
            if self.gpu_count.isTruthy || capability.gpu_count.isTruthy then
              generate_min_capability_countspace self.gpu_count capability.gpu_count
            else some (.exact 0)
          let base_features :=
            match self.features with
            | some f => f.items
            | none => []
          match self.excluded_features with
          | some es =>
            let disabled := es.items.map fun f => { f with enabled := false }
            .ok ({ node_count := node_count, core_count := core_count,
                   memory_mb := memory_mb, nic_count := nic_count,
                   gpu_count := gpu_count,
                   features := some ⟨true, base_features ++ disabled⟩ },
                 { self with excluded_features := some { es with items := disabled } })
          | none =>
            .ok ({ node_count := node_count, core_count := core_count,
                   memory_mb := memory_mb, nic_count := nic_count,
                   gpu_count := gpu_count,
                   features := some ⟨true, base_features⟩ },
                 self)
        else .error "nic_count cannot be zero"
      else .error "memory_mb cannot be zero"
    else .error "core_count cannot be zero"
  else .error "node_count cannot be zero"

/-- `lisa/schema.py` `EnvironmentSpace`: a topology tag and an ordered list of
nodes. -/
structure EnvironmentSpace where
  topology : String := "subnet"
  nodes : List NodeSpace := []
deriving Repr, DecidableEq

/-- The loop of `EnvironmentSpace.check` (lines 616-626 of `lisa/schema.py`):
requirement node at `index` is checked against `capability.nodes[0]` when the
capability has exactly one node and against `capability.nodes[index]`
otherwise; each sub-result is merged under the stringified index, and the
loop breaks as soon as the accumulated verdict is false.  An out-of-range
index models Python's `IndexError` as `Except.error`. -/
def EnvironmentSpace.check_nodes (capability : EnvironmentSpace) :
    List NodeSpace → Nat → ResultReason → Except String ResultReason
  | [], _, result => .ok result
  | current_req :: rest, index, result =>
    let cap_entry :=
      if capability.nodes.length == 1 then capability.nodes[0]?
      else capability.nodes[index]?
    match cap_entry with
    | none => .error "IndexError: list index out of range"
    | some current_cap =>
      match current_req.check (some current_cap) with
      | .error e => .error e
      | .ok sub =>
        let result := result.merge sub (toString index)
        if !result.result then .ok result
        else EnvironmentSpace.check_nodes capability rest (index + 1) result

/-- `EnvironmentSpace.check` (lines 610-628 of `lisa/schema.py`): one reason
if the capability declares no nodes, otherwise the indexed loop over the
requirement's nodes. -/
def EnvironmentSpace.check (self capability : EnvironmentSpace) :
    Except String ResultReason :=
  let result : ResultReason := {}
  if capability.nodes.isEmpty then
    .ok (result.add_reason "nodes should not be None or empty")
  else EnvironmentSpace.check_nodes capability self.nodes 0 result

/-- Method-call rendering of `EnvironmentSpace.check`: result plus post-call
states of `self` and `capability`; the body (lines 610-628) assigns only to
its local `result`, never to a field of either argument. -/
def EnvironmentSpace.check_call (self capability : EnvironmentSpace) :
    Except String ResultReason × EnvironmentSpace × EnvironmentSpace :=
  (self.check capability, self, capability)

/-- Restatement of the broadcast mode claimed for `EnvironmentSpace.check`:
every requirement node is checked against the one shared capability node,
with the same index prefixes and the same short-circuit. -/
def broadcast_check (cap0 : NodeSpace) :
    List NodeSpace → Nat → ResultReason → Except String ResultReason
  | [], _, result => .ok result
  | current_req :: rest, index, result =>
    match current_req.check (some cap0) with
    | .error e => .error e
    | .ok sub =>
      let result := result.merge sub (toString index)
      if !result.result then .ok result
      else broadcast_check cap0 rest (index + 1) result

/-- Restatement of the pairwise mode claimed for `EnvironmentSpace.check`:
requirement and capability nodes are paired positionally (the pairs of the
zipped lists), with the same index prefixes and the same short-circuit. -/
def pairwise_check :
    List (NodeSpace × NodeSpace) → Nat → ResultReason → Except String ResultReason
  | [], _, result => .ok result
  | (current_req, current_cap) :: rest, index, result =>
    match current_req.check (some current_cap) with
    | .error e => .error e
    | .ok sub =>
      let result := result.merge sub (toString index)
      if !result.result then .ok result
      else pairwise_check rest (index + 1) result

/-- The guard contribution of `NodeSpace.check` (lines 396-404), taken from a
fresh result: one un-prefixed reason when any of the four required capability
count fields is falsy. -/
def NodeSpace.guard_result (capability : NodeSpace) : ResultReason :=
  if !capability.node_count.isTruthy || !capability.core_count.isTruthy
      || !capability.memory_mb.isTruthy || !capability.nic_count.isTruthy then
    reason0 guardMsg
  else {}

/-- The `node_count` contribution of `NodeSpace.check` (lines 406-416), taken
from a fresh result. -/
def node_count_step (p q : CountSpace) : ResultReason :=
  match p, q with
  | some (.exact rn), some (.exact cn) =>
    if rn > cn then reason0 (node_count_msg rn cn) else {}
  | _, _ => prefixed (check_countspace p q) "node_count"

/-- The `node_count` contribution of `NodeSpace.check` for a requirement and
capability pair. -/
def NodeSpace.node_count_result (self capability : NodeSpace) : ResultReason :=
  node_count_step self.node_count capability.node_count

/-- The contribution of one delegated count field of `NodeSpace.check`
(lines 418-433), taken from a fresh result. -/
def count_field_result (p q : CountSpace) (name : String) : ResultReason :=
  prefixed (check_countspace p q) name

/-- The `features` contribution of `NodeSpace.check` (lines 434-436), taken
from a fresh result. -/
def NodeSpace.features_result (self capability : NodeSpace) : ResultReason :=
  prefixed (set_space_check self.features capability.features) "features"

/-- The `excluded_features` contribution of `NodeSpace.check`
(lines 437-441), taken from a fresh result: present only when the
requirement declares an excluded set, and checked against the must-include
set derived from the capability. -/
def NodeSpace.excluded_result (self capability : NodeSpace) : ResultReason :=
  if self.excluded_features.isSome then
    prefixed (set_space_check self.excluded_features (self.must_included capability))
      "excluded_features"
  else {}

/-- The full result of `NodeSpace.check` on a present capability, written as
the concatenation of its per-field contributions in source order. -/
def NodeSpace.check_unfolded (self capability : NodeSpace) : ResultReason :=
  (((((((NodeSpace.guard_result capability).append
      (self.node_count_result capability)).append
      (count_field_result self.core_count capability.core_count "core_count")).append
      (count_field_result self.memory_mb capability.memory_mb "memory_mb")).append
      (count_field_result self.nic_count capability.nic_count "nic_count")).append
      (count_field_result self.gpu_count capability.gpu_count "gpu_count")).append
      (self.features_result capability)).append
    (self.excluded_result capability)

lemma ResultReason.append_empty (r : ResultReason) : r.append {} = r := by
  cases r; simp [ResultReason.append]

lemma ResultReason.empty_append (r : ResultReason) :
    ResultReason.append {} r = r := by
  cases r; simp [ResultReason.append]

lemma ResultReason.append_assoc (a b c : ResultReason) :
    (a.append b).append c = a.append (b.append c) := by
  simp [ResultReason.append, Bool.and_assoc]

lemma ResultReason.add_reason_eq_append (r : ResultReason) (m : String) :
    r.add_reason m = r.append (reason0 m) := by
  cases r; simp [ResultReason.add_reason, ResultReason.append, reason0]

lemma ResultReason.merge_eq_append (r sub : ResultReason) (n : String) :
    r.merge sub n = r.append (prefixed sub n) := by
  cases r; simp [ResultReason.merge, ResultReason.append, prefixed]

lemma ite_add_reason_eq_append (res : ResultReason) (cond : Bool) (m : String) :
    (if cond then res.add_reason m else res)
      = res.append (if cond then reason0 m else {}) := by
  cases cond <;>
    simp [ResultReason.add_reason_eq_append, ResultReason.append_empty]

lemma ite_merge_eq_append (res sub : ResultReason) (cond : Bool) (n : String) :
    (if cond then res.merge sub n else res)
      = res.append (if cond then prefixed sub n else {}) := by
  cases cond <;>
    simp [ResultReason.merge_eq_append, ResultReason.append_empty]

lemma node_count_block_eq_append (p q : CountSpace) (res : ResultReason) :
    node_count_block p q res = res.append (node_count_step p q) := by
  rcases p with _ | (n | rg) <;> rcases q with _ | (m | rg2) <;>
    simp [node_count_block, node_count_step, ResultReason.merge_eq_append,
      ResultReason.append_empty]
  split <;>
    simp [ResultReason.add_reason_eq_append, ResultReason.append_empty]

/-- `NodeSpace.check` on a well-tagged requirement and a present capability
never raises and returns exactly the concatenation of its per-field
contributions. -/
lemma NodeSpace.check_eq_unfolded (r c : NodeSpace) (h : r.tags_ok = true) :
    r.check (some c) = .ok (r.check_unfolded c) := by
  simp only [NodeSpace.check, Option.isNone_some, Bool.false_eq_true, if_false, h,
    Bool.not_true, node_count_block_eq_append, ite_add_reason_eq_append,
    ite_merge_eq_append, ResultReason.merge_eq_append, ResultReason.empty_append]
  simp [NodeSpace.check_unfolded, NodeSpace.guard_result,
    NodeSpace.node_count_result, count_field_result, NodeSpace.features_result,
    NodeSpace.excluded_result, ResultReason.append_assoc]
  by_cases h2 : r.excluded_features.isSome <;>
    simp [h2, ResultReason.append_empty]

/-- Whether an `Except` computation returned normally (no raised exception). -/
def exceptOk {α : Type} : Except String α → Bool
  | .ok _ => true
  | .error _ => false

/-- Number of features in a node's declared excluded set (0 when absent). -/
def excludedCount (n : NodeSpace) : Nat :=
  match n.excluded_features with
  | some s => s.items.length
  | none => 0

/-- A delegated count field fails exactly when its contribution is a single
reason whose path is the field's name. -/
def count_fail_single (p q : CountSpace) (n : String) : Prop :=
  (count_field_result p q n).result = false ↔
    (count_field_result p q n).reasons.map Reason.path = [[n]]

/-- A requirement whose node count is exactly 4 (all other fields at their
dataclass defaults). -/
def nsReq4 : NodeSpace := { node_count := some (.exact 4) }

/-- A capability whose node count is exactly 2 (all other fields at their
dataclass defaults, hence satisfying the default requirements). -/
def nsCap2 : NodeSpace := { node_count := some (.exact 2) }

/-- A node with every field at its dataclass default. -/
def nsDefault : NodeSpace := {}

/-- A requirement excluding the RDMA feature (deny set, as
`NodeSpace.__post_init__` tags it). -/
def nsExcludeRdma : NodeSpace :=
  { excluded_features := some ⟨false, [⟨"RDMA", true, false⟩]⟩ }

/-- A capability offering RDMA as enabled but disableable. -/
def nsOptionalRdma : NodeSpace :=
  { features := some ⟨true, [⟨"RDMA", true, true⟩]⟩ }

/-- An environment requirement with two default nodes. -/
def envReqTwo : EnvironmentSpace := { nodes := [{}, {}] }

/-- An environment capability with a single default node. -/
def envCapOne : EnvironmentSpace := { nodes := [{}] }

/-- An environment capability with two default nodes. -/
def envCapTwo : EnvironmentSpace := { nodes := [{}, {}] }

/-- An environment requirement with two nodes each requiring exactly 4 nodes. -/
def envReqFourFour : EnvironmentSpace := { nodes := [nsReq4, nsReq4] }

/-- An environment capability with two nodes each offering exactly 2 nodes
(so every requirement node of `envReqFourFour` fails against it). -/
def envCapTwoTwo : EnvironmentSpace := { nodes := [nsCap2, nsCap2] }

/-- A node whose node count is the exact integer 0 (falsy in Python). -/
def nsZeroNodes : NodeSpace := { node_count := some (.exact 0) }

/-- A requirement whose node count is exactly 2. -/
def nsReq2 : NodeSpace := { node_count := some (.exact 2) }

/-- A capability whose node count is exactly 4. -/
def nsCap4 : NodeSpace := { node_count := some (.exact 4) }

/-- The minimal capability generated from `nsReq2` against `nsCap4`: the
capability's node count is kept, the delegated fields tighten to the default
ranges' lower bounds. -/
def nsMinOut24 : NodeSpace :=
  { node_count := some (.exact 4), core_count := some (.exact 1),
    memory_mb := some (.exact 512), nic_count := some (.exact 1),
    gpu_count := some (.exact 0), features := some ⟨true, []⟩ }

/-- A requirement with its core count absent. -/
def nsNoCoreReq : NodeSpace := { core_count := none }

/-- A capability with core count 0 (falsy). -/
def nsZeroCoreCap : NodeSpace := { core_count := some (.exact 0) }

/-- A requirement with its GPU count absent. -/
def nsNoGpuReq : NodeSpace := { gpu_count := none }

/-- A capability with its GPU count absent. -/
def nsNoGpuCap : NodeSpace := { gpu_count := none }

/-- The minimal capability generated from `nsNoGpuReq` against `nsNoGpuCap`:
the GPU count defaults to exactly 0. -/
def nsMinOutGpu : NodeSpace :=
  { node_count := some (.exact 1), core_count := some (.exact 1),
    memory_mb := some (.exact 512), nic_count := some (.exact 1),
    gpu_count := some (.exact 0), features := some ⟨true, []⟩ }

/-- A capability whose core count is absent (`None`), the other required
fields at their defaults. -/
def nsAbsentCoreCap : NodeSpace := { core_count := none }

/-- A requirement whose excluded RDMA feature is already disabled, so the
generator's forced disabling is observationally a no-op. -/
def nsExcludeDisabledRdma : NodeSpace :=
  { excluded_features := some ⟨false, [⟨"RDMA", false, false⟩]⟩ }

/-- The minimal capability generated from `nsExcludeRdma` against a default
capability: the excluded feature reappears force-disabled in `features`. -/
def nsMinOutRdma : NodeSpace :=
  { node_count := some (.exact 1), core_count := some (.exact 1),
    memory_mb := some (.exact 512), nic_count := some (.exact 1),
    gpu_count := some (.exact 0), features := some ⟨true, [⟨"RDMA", false, false⟩]⟩ }

/-- Post-call state of `nsExcludeRdma` after min-capability generation: its
excluded feature has been mutated to disabled. -/
def nsExcludeRdmaPost : NodeSpace :=
  { excluded_features := some ⟨false, [⟨"RDMA", false, false⟩]⟩ }

lemma check_countspace_shape (p q : CountSpace) :
    check_countspace p q = {} ∨ ∃ m, check_countspace p q = reason0 m := by
  rcases p with _ | req
  · left; rfl
  · rcases q with _ | cap
    · right; exact ⟨_, rfl⟩
    · simp only [check_countspace]
      split
      · left; rfl
      · right; exact ⟨_, rfl⟩

lemma set_space_check_shape (p q : Option SetSpace) :
    set_space_check p q = {} ∨ ∃ m, set_space_check p q = reason0 m := by
  rcases p with _ | req
  · left; rfl
  · simp only [set_space_check]
    split
    · split
      · left; rfl
      · split
        · left; rfl
        · right; exact ⟨_, rfl⟩
    · split
      · left; rfl
      · right; exact ⟨_, rfl⟩

lemma count_fail_single_holds (p q : CountSpace) (n : String) :
    count_fail_single p q n := by
  rcases check_countspace_shape p q with hsh | ⟨m, hsh⟩ <;>
    simp [count_fail_single, count_field_result, hsh, prefixed, reason0]

/-- C1: for a requirement and capability whose `node_count` fields are both
exact integers, `NodeSpace.check` records a node-count failure exactly when
the capability's count is strictly below the requirement's (a strictly
greater capability passes, producing no reason at all); when either side is
not an exact integer the comparison is delegated to the count-space resolver
`check_countspace`, merged under the field name `node_count`.  The final
clause places this `node_count` contribution inside the full result of
`NodeSpace.check`. -/
theorem c1_node_count_special_case (r c : NodeSpace) :
    (∀ rn cn : Int, r.node_count = some (.exact rn) → c.node_count = some (.exact cn) →
      (((r.node_count_result c).result = false ↔ cn < rn) ∧
       (cn < rn → r.node_count_result c = reason0 (node_count_msg rn cn)) ∧
       (¬ cn < rn → r.node_count_result c = {}))) ∧
    (((∀ n : Int, r.node_count ≠ some (.exact n)) ∨
      (∀ n : Int, c.node_count ≠ some (.exact n))) →
      r.node_count_result c =
        prefixed (check_countspace r.node_count c.node_count) "node_count") ∧
    (r.tags_ok = true → r.check (some c) = .ok (r.check_unfolded c)) := by
  refine ⟨?_, ?_, NodeSpace.check_eq_unfolded r c⟩
  · intro rn cn h1 h2
    refine ⟨?_, ?_, ?_⟩
    · by_cases h : cn < rn <;>
        simp [NodeSpace.node_count_result, node_count_step, h1, h2, h, reason0]
    · intro h
      simp [NodeSpace.node_count_result, node_count_step, h1, h2, h]
    · intro h
      simp [NodeSpace.node_count_result, node_count_step, h1, h2, h]
  · intro h
    cases hp : r.node_count with
    | none => simp [NodeSpace.node_count_result, node_count_step, hp]
    | some cs =>
      cases cs with
      | range rg => simp [NodeSpace.node_count_result, node_count_step, hp]
      | exact n =>
        cases hq : c.node_count with
        | none => simp [NodeSpace.node_count_result, node_count_step, hp, hq]
        | some cs2 =>
          cases cs2 with
          | range rg2 => simp [NodeSpace.node_count_result, node_count_step, hp, hq]
          | exact m =>
            rcases h with h | h
            · exact absurd hp (h n)
            · exact absurd hq (h m)

/-- Witness for C1 at requirement node count 4 against capability node
count 2: the node-count sub-check fails. -/
theorem c1_witness :
    (nsReq4.node_count_result nsCap2).result = false ∧ ((2 : Int) < 4) :=
  ⟨((c1_node_count_special_case nsReq4 nsCap2).1 4 2 rfl rfl).1.mpr (by decide),
   by decide⟩

lemma set_space_check_deny_pass (req cap : SetSpace) (h : req.is_allow_set = false)
    (hnone : ∀ f ∈ req.items, cap.featureNames.contains f.name = false) :
    set_space_check (some req) (some cap) = {} := by
  simp only [set_space_check, h, Bool.false_eq_true, if_false, Option.map, Option.getD]
  have hall : (req.items.all fun f => !cap.featureNames.contains f.name) = true := by
    rw [List.all_eq_true]
    intro f hf
    simp only [hnone f hf]
    rfl
  simp only [hall]
  rfl

/-- C2: with a declared excluded set and declared capability features, the
exclusion is evaluated against exactly the must-include set (the capability
features that are enabled and cannot be disabled); a feature that is enabled
but disableable never enters that set, and when every capability feature
sharing a name with an excluded one is disabled or disableable the exclusion
check passes. -/
theorem c2_excluded_vs_must_include (r c : NodeSpace) (es cf : SetSpace)
    (htag : es.is_allow_set = false)
    (hr : r.excluded_features = some es) (hc : c.features = some cf) :
    r.must_included c =
      some ⟨true, cf.items.filter fun f => f.enabled && !f.can_disable⟩ ∧
    r.excluded_result c =
      prefixed (set_space_check (some es) (r.must_included c)) "excluded_features" ∧
    (∀ g ∈ cf.items, g.enabled = true → g.can_disable = true →
      ∀ s, r.must_included c = some s → g ∉ s.items) ∧
    ((∀ f ∈ es.items, ∀ g ∈ cf.items, g.name = f.name →
        g.enabled = false ∨ g.can_disable = true) →
      (r.excluded_result c).result = true) ∧
    (r.tags_ok = true → r.check (some c) = .ok (r.check_unfolded c)) := by
  refine ⟨?_, ?_, ?_, ?_, NodeSpace.check_eq_unfolded r c⟩
  · simp [NodeSpace.must_included, hr, hc]
  · simp [NodeSpace.excluded_result, hr]
  · intro g hg he hd s hs
    simp [NodeSpace.must_included, hr, hc] at hs
    subst hs
    simp [List.mem_filter, hd]
  · intro hyp
    have hnone : ∀ f ∈ es.items,
        (SetSpace.featureNames
          ⟨true, cf.items.filter fun g => g.enabled && !g.can_disable⟩).contains
            f.name = false := by
      intro f hf
      rw [← Bool.not_eq_true]
      intro hcontains
      rw [List.contains_iff_exists_mem_beq] at hcontains
      obtain ⟨nm, hnm, hbeq⟩ := hcontains
      simp only [SetSpace.featureNames, List.mem_map] at hnm
      obtain ⟨g, hgmem, hgname⟩ := hnm
      rw [List.mem_filter] at hgmem
      obtain ⟨hgitems, hgcond⟩ := hgmem
      have hname : g.name = f.name := hgname.trans (eq_of_beq hbeq).symm
      rcases hyp f hf g hgitems hname with hdis | hcan
      · simp [hdis] at hgcond
      · simp [hcan] at hgcond
    have hpass := set_space_check_deny_pass es
      ⟨true, cf.items.filter fun g => g.enabled && !g.can_disable⟩ htag hnone
    simp [NodeSpace.excluded_result, hr, NodeSpace.must_included, hc, hpass, prefixed]

/-- Witness for C2: a requirement excluding RDMA against a capability
offering RDMA as enabled-but-disableable passes the exclusion check. -/
theorem c2_witness : (nsExcludeRdma.excluded_result nsOptionalRdma).result = true :=
  (c2_excluded_vs_must_include nsExcludeRdma nsOptionalRdma
      ⟨false, [⟨"RDMA", true, false⟩]⟩ ⟨true, [⟨"RDMA", true, true⟩]⟩
      rfl rfl rfl).2.2.2.1 (by decide)

lemma check_nodes_broadcast_of_singleton (cap : EnvironmentSpace) (n0 : NodeSpace)
    (h : cap.nodes = [n0]) :
    ∀ (reqs : List NodeSpace) (i : Nat) (res : ResultReason),
      cap.check_nodes reqs i res = broadcast_check n0 reqs i res := by
  intro reqs
  induction reqs with
  | nil => intro i res; rfl
  | cons a rest ih =>
    intro i res
    have hcap : (if (cap.nodes.length == 1) = true then cap.nodes[0]?
        else cap.nodes[i]?) = some n0 := by
      simp [h]
    simp only [EnvironmentSpace.check_nodes, broadcast_check, hcap]
    cases hchk : a.check (some n0) with
    | error e => simp [hchk]
    | ok sub =>
      simp only [hchk]
      split
      · rfl
      · exact ih (i + 1) _

lemma check_nodes_pairwise_of_length_ne_one (cap : EnvironmentSpace)
    (hlen : cap.nodes.length ≠ 1) :
    ∀ (reqs : List NodeSpace) (i : Nat) (res : ResultReason),
      i + reqs.length ≤ cap.nodes.length →
      cap.check_nodes reqs i res = pairwise_check (reqs.zip (cap.nodes.drop i)) i res := by
  intro reqs
  induction reqs with
  | nil => intro i res hi; simp [EnvironmentSpace.check_nodes, pairwise_check]
  | cons a rest ih =>
    intro i res hi
    have hilt : i < cap.nodes.length := by
      simp only [List.length_cons] at hi; omega
    have hdrop : cap.nodes.drop i = cap.nodes[i] :: cap.nodes.drop (i + 1) :=
      List.drop_eq_getElem_cons hilt
    have hb : (cap.nodes.length == 1) = false := by
      simp [hlen]
    have hcap : (if (cap.nodes.length == 1) = true then cap.nodes[0]?
        else cap.nodes[i]?) = some cap.nodes[i] := by
      simp [hb, List.getElem?_eq_getElem hilt]
    rw [hdrop, List.zip_cons_cons]
    simp only [EnvironmentSpace.check_nodes, pairwise_check, hcap]
    cases hchk : a.check (some cap.nodes[i]) with
    | error e => simp [hchk]
    | ok sub =>
      simp only [hchk]
      split
      · rfl
      · refine ih (i + 1) _ ?_
        simp only [List.length_cons] at hi; omega

/-- C3: when the capability declares exactly one node, `EnvironmentSpace.check`
checks that single node against every requirement node (broadcast); when the
capability declares any other number of nodes (and the requirement's nodes all
have a positionally corresponding capability node), the pairing is positional
by index. -/
theorem c3_environment_broadcast_pairwise (self cap : EnvironmentSpace) :
    (∀ n0 : NodeSpace, cap.nodes = [n0] →
      self.check cap = broadcast_check n0 self.nodes 0 {}) ∧
    (cap.nodes ≠ [] → cap.nodes.length ≠ 1 →
      self.nodes.length ≤ cap.nodes.length →
      self.check cap = pairwise_check (self.nodes.zip cap.nodes) 0 {}) := by
  constructor
  · intro n0 h
    have hne : cap.nodes.isEmpty = false := by simp [h]
    simp only [EnvironmentSpace.check, hne, Bool.false_eq_true, if_false]
    exact check_nodes_broadcast_of_singleton cap n0 h self.nodes 0 {}
  · intro hne hlen hle
    have hne2 : cap.nodes.isEmpty = false := by
      simp [List.isEmpty_iff, hne]
    simp only [EnvironmentSpace.check, hne2, Bool.false_eq_true, if_false]
    have := check_nodes_pairwise_of_length_ne_one cap hlen self.nodes 0 {}
      (by simpa using hle)
    simpa using this

/-- Witness for C3: a two-node requirement against a one-node capability uses
broadcast; against a two-node capability it pairs by index. -/
theorem c3_witness :
    EnvironmentSpace.check envReqTwo envCapOne =
      broadcast_check nsDefault envReqTwo.nodes 0 {} ∧
    EnvironmentSpace.check envReqTwo envCapTwo =
      pairwise_check (envReqTwo.nodes.zip envCapTwo.nodes) 0 {} :=
  ⟨(c3_environment_broadcast_pairwise envReqTwo envCapOne).1 nsDefault rfl,
   (c3_environment_broadcast_pairwise envReqTwo envCapTwo).2 (by decide) (by decide)
     (by decide)⟩

/-- C4: `EnvironmentSpace.check` short-circuits at the first failing
requirement node: when requirement node 0 fails against its capability node
(which is `capability.nodes[0]` in both the broadcast and the pairwise mode),
the returned result carries exactly node 0's reasons, each prefixed with
index "0", and nothing from any later node. -/
theorem c4_environment_short_circuit (self cap : EnvironmentSpace)
    (n0 : NodeSpace) (rest : List NodeSpace) (c0 : NodeSpace)
    (crest : List NodeSpace) (sub : ResultReason)
    (hs : self.nodes = n0 :: rest) (hc : cap.nodes = c0 :: crest)
    (hchk : n0.check (some c0) = .ok sub) (hfail : sub.result = false) :
    self.check cap =
      .ok ⟨false, sub.reasons.map fun x => ⟨"0" :: x.path, x.msg⟩⟩ := by
  have hne : cap.nodes.isEmpty = false := by simp [hc]
  have hcap : (if (cap.nodes.length == 1) = true then cap.nodes[0]?
      else cap.nodes[0]?) = some c0 := by
    simp [hc]
  have hstr : toString (0 : Nat) = "0" := rfl
  simp only [EnvironmentSpace.check, hne, Bool.false_eq_true, if_false, hs,
    EnvironmentSpace.check_nodes, hcap, hchk, hstr]
  simp [ResultReason.merge, hfail]

/-- Witness for C4: both requirement nodes of `envReqFourFour` fail against
`envCapTwoTwo`, yet only node 0's single node-count reason is reported. -/
theorem c4_witness :
    EnvironmentSpace.check envReqFourFour envCapTwoTwo =
      .ok ⟨false, [⟨["0"], node_count_msg 4 2⟩]⟩ :=
  c4_environment_short_circuit envReqFourFour envCapTwoTwo nsReq4 [nsReq4]
    nsCap2 [nsCap2] (reason0 (node_count_msg 4 2)) rfl rfl rfl rfl

/-- Counterexample to C5 as stated: with requirement node count exactly 4
and capability node count exactly 2 (all other fields at defaults and
passing), the check fails on `node_count` yet its only reason has an empty
field path — there is no reason prefixed with the failing field's path. -/
theorem c5_counterexample :
    NodeSpace.check nsReq4 (some nsCap2) =
      .ok ⟨false, [⟨[], node_count_msg 4 2⟩]⟩ := rfl

/-- C5 amended: on a well-tagged requirement and a present capability,
`NodeSpace.check` never raises for a mismatch and evaluates every field —
the verdict is the AND of all sub-checks and the reason list is the
concatenation of every sub-check's reasons in field order; each failing
delegated count field contributes exactly one reason prefixed with its field
path, while an exact-integer node-count mismatch contributes exactly one
un-prefixed reason. -/
theorem c5_amended_field_aggregation (r c : NodeSpace) (h : r.tags_ok = true) :
    r.check (some c) = .ok (r.check_unfolded c) ∧
    (r.check_unfolded c).result =
      ((NodeSpace.guard_result c).result && (r.node_count_result c).result &&
        (count_field_result r.core_count c.core_count "core_count").result &&
        (count_field_result r.memory_mb c.memory_mb "memory_mb").result &&
        (count_field_result r.nic_count c.nic_count "nic_count").result &&
        (count_field_result r.gpu_count c.gpu_count "gpu_count").result &&
        (r.features_result c).result && (r.excluded_result c).result) ∧
    (r.check_unfolded c).reasons =
      (NodeSpace.guard_result c).reasons ++ ((r.node_count_result c).reasons ++
        ((count_field_result r.core_count c.core_count "core_count").reasons ++
        ((count_field_result r.memory_mb c.memory_mb "memory_mb").reasons ++
        ((count_field_result r.nic_count c.nic_count "nic_count").reasons ++
        ((count_field_result r.gpu_count c.gpu_count "gpu_count").reasons ++
        ((r.features_result c).reasons ++ (r.excluded_result c).reasons)))))) ∧
    count_fail_single r.core_count c.core_count "core_count" ∧
    count_fail_single r.memory_mb c.memory_mb "memory_mb" ∧
    count_fail_single r.nic_count c.nic_count "nic_count" ∧
    count_fail_single r.gpu_count c.gpu_count "gpu_count" ∧
    (∀ rn cn : Int, r.node_count = some (.exact rn) → c.node_count = some (.exact cn) →
      rn > cn → (r.node_count_result c).reasons = [⟨[], node_count_msg rn cn⟩]) := by
  refine ⟨NodeSpace.check_eq_unfolded r c h, ?_, ?_,
    count_fail_single_holds _ _ _, count_fail_single_holds _ _ _,
    count_fail_single_holds _ _ _, count_fail_single_holds _ _ _, ?_⟩
  · simp [NodeSpace.check_unfolded, ResultReason.append, Bool.and_assoc]
  · simp [NodeSpace.check_unfolded, ResultReason.append]
  · intro rn cn h1 h2 h3
    simp [NodeSpace.node_count_result, node_count_step, h1, h2, h3, reason0]

/-- Witness for C5 amended, at the all-default requirement and capability. -/
theorem c5_witness :
    nsDefault.check (some nsDefault) = .ok (nsDefault.check_unfolded nsDefault) :=
  (c5_amended_field_aggregation nsDefault nsDefault rfl).1

/-- Counterexample to C6 as stated: with both node counts the exact integer 0
(both exact integers), `_generate_min_capability` raises instead of returning
a `NodeSpace` carrying the capability's value. -/
theorem c6_counterexample :
    NodeSpace.generate_min_capability nsZeroNodes nsZeroNodes =
      .error "node_count cannot be zero" := rfl

/-- C6 amended: whenever both node counts are exact integers and
`_generate_min_capability` returns a `NodeSpace` (no required field was
absent on both sides), the result's `node_count` is the capability's value
unmodified — also when it strictly exceeds the requirement's. -/
theorem c6_amended_capability_node_count_kept (r c : NodeSpace) (rn cn : Int)
    (hr : r.node_count = some (.exact rn)) (hc : c.node_count = some (.exact cn))
    (out rpost : NodeSpace)
    (hok : r.generate_min_capability c = .ok (out, rpost)) :
    out.node_count = some (.exact cn) := by
  unfold NodeSpace.generate_min_capability at hok
  rw [hr, hc] at hok
  simp only at hok
  split at hok
  · split at hok
    · split at hok
      · split at hok
        · split at hok <;>
            · rw [Except.ok.injEq, Prod.mk.injEq] at hok
              rw [← hok.1]
        · exact absurd hok (by simp)
      · exact absurd hok (by simp)
    · exact absurd hok (by simp)
  · exact absurd hok (by simp)

/-- Witness for C6 amended: requirement node count 2 against capability node
count 4 keeps the capability's 4. -/
theorem c6_witness : nsMinOut24.node_count = some (.exact 4) :=
  c6_amended_capability_node_count_kept nsReq2 nsCap4 2 4 rfl rfl
    nsMinOut24 nsReq2 rfl

/-- Counterexample to C7 as stated: a `None` capability does not yield a
returned `ResultReason` — after noting the reason, `NodeSpace.check` fails
its `isinstance` assertion and raises. -/
theorem c7_counterexample :
    nsDefault.check none = .error "assert isinstance(capability, NodeSpace)" := rfl

/-- C7 amended: for a present capability with `node_count`, `core_count`,
`memory_mb` or `nic_count` absent, `NodeSpace.check` adds a single
un-prefixed guard reason, still evaluates every remaining field, and returns
a false verdict without raising; a `None` capability instead raises the
`isinstance` assertion (see the counterexample). -/
theorem c7_amended_guard_then_proceed (r c : NodeSpace) (h : r.tags_ok = true)
    (habs : c.node_count = none ∨ c.core_count = none ∨ c.memory_mb = none ∨
      c.nic_count = none) :
    r.check (some c) = .ok (r.check_unfolded c) ∧
    NodeSpace.guard_result c = reason0 guardMsg ∧
    (r.check_unfolded c).result = false ∧
    (r.check_unfolded c).reasons =
      ⟨[], guardMsg⟩ :: ((r.node_count_result c).reasons ++
        ((count_field_result r.core_count c.core_count "core_count").reasons ++
        ((count_field_result r.memory_mb c.memory_mb "memory_mb").reasons ++
        ((count_field_result r.nic_count c.nic_count "nic_count").reasons ++
        ((count_field_result r.gpu_count c.gpu_count "gpu_count").reasons ++
        ((r.features_result c).reasons ++ (r.excluded_result c).reasons)))))) := by
  have hguard : NodeSpace.guard_result c = reason0 guardMsg := by
    rcases habs with h1 | h1 | h1 | h1 <;>
      simp [NodeSpace.guard_result, h1, CountSpace.isTruthy]
  refine ⟨NodeSpace.check_eq_unfolded r c h, hguard, ?_, ?_⟩
  · simp [NodeSpace.check_unfolded, ResultReason.append, hguard, reason0]
  · simp [NodeSpace.check_unfolded, ResultReason.append, hguard, reason0]

/-- Witness for C7 amended: a capability with absent core count gets the
guard reason and a false verdict. -/
theorem c7_witness :
    NodeSpace.guard_result nsAbsentCoreCap = reason0 guardMsg ∧
    (nsDefault.check_unfolded nsAbsentCoreCap).result = false :=
  ⟨(c7_amended_guard_then_proceed nsDefault nsAbsentCoreCap rfl
      (Or.inr (Or.inl rfl))).2.1,
   (c7_amended_guard_then_proceed nsDefault nsAbsentCoreCap rfl
      (Or.inr (Or.inl rfl))).2.2.1⟩

/-- C8: `_generate_min_capability` raises a configuration error whenever
neither side declares a (truthy) value for `node_count`, `core_count`,
`memory_mb` or `nic_count`; when all four are declared it returns normally,
and if neither side declares a `gpu_count` the result's GPU count is set to
exactly 0 instead of raising. -/
theorem c8_generation_absent_fields (r c : NodeSpace) :
    (((r.node_count.isTruthy || c.node_count.isTruthy) = false ∨
      (r.core_count.isTruthy || c.core_count.isTruthy) = false ∨
      (r.memory_mb.isTruthy || c.memory_mb.isTruthy) = false ∨
      (r.nic_count.isTruthy || c.nic_count.isTruthy) = false) →
      exceptOk (r.generate_min_capability c) = false) ∧
    ((r.node_count.isTruthy || c.node_count.isTruthy) = true →
     (r.core_count.isTruthy || c.core_count.isTruthy) = true →
     (r.memory_mb.isTruthy || c.memory_mb.isTruthy) = true →
     (r.nic_count.isTruthy || c.nic_count.isTruthy) = true →
      exceptOk (r.generate_min_capability c) = true ∧
      ((r.gpu_count.isTruthy || c.gpu_count.isTruthy) = false →
        ∀ out rpost : NodeSpace, r.generate_min_capability c = .ok (out, rpost) →
          out.gpu_count = some (.exact 0))) := by
  constructor
  · intro habs
    unfold NodeSpace.generate_min_capability
    rcases habs with h1 | h1 | h1 | h1
    · simp [h1, exceptOk]
    · by_cases h0 : (r.node_count.isTruthy || c.node_count.isTruthy) = true <;>
        simp [h0, h1, exceptOk]
    · by_cases h0 : (r.node_count.isTruthy || c.node_count.isTruthy) = true <;>
        by_cases h2 : (r.core_count.isTruthy || c.core_count.isTruthy) = true <;>
          simp [h0, h2, h1, exceptOk]
    · by_cases h0 : (r.node_count.isTruthy || c.node_count.isTruthy) = true <;>
        by_cases h2 : (r.core_count.isTruthy || c.core_count.isTruthy) = true <;>
          by_cases h3 : (r.memory_mb.isTruthy || c.memory_mb.isTruthy) = true <;>
            simp [h0, h2, h3, h1, exceptOk]
  · intro h1 h2 h3 h4
    constructor
    · unfold NodeSpace.generate_min_capability
      simp only [h1, h2, h3, h4, if_true]
      cases r.excluded_features <;> simp [exceptOk]
    · intro hg out rpost hok
      unfold NodeSpace.generate_min_capability at hok
      simp only [h1, h2, h3, h4, if_true, hg, Bool.false_eq_true, if_false] at hok
      cases hx : r.excluded_features <;> rw [hx] at hok <;>
        · simp only at hok
          rw [Except.ok.injEq, Prod.mk.injEq] at hok
          rw [← hok.1]

/-- Witness for C8: an absent-on-both-sides core count raises; absent GPU
counts on both sides yield a normal return with GPU count exactly 0. -/
theorem c8_witness :
    exceptOk (nsNoCoreReq.generate_min_capability nsZeroCoreCap) = false ∧
    nsMinOutGpu.gpu_count = some (.exact 0) :=
  ⟨(c8_generation_absent_fields nsNoCoreReq nsZeroCoreCap).1
      (Or.inr (Or.inl (by decide))),
   ((c8_generation_absent_fields nsNoGpuReq nsNoGpuCap).2 (by decide) (by decide)
      (by decide) (by decide)).2 (by decide) nsMinOutGpu nsNoGpuReq rfl⟩

/-- C9: neither `NodeSpace.check` nor `EnvironmentSpace.check` mutates its
requirement or capability argument — the post-call states equal the inputs —
and a second call on the post-call states returns the same verdict and
reasons as the first. -/
theorem c9_check_does_not_mutate :
    (∀ (r : NodeSpace) (c : Option NodeSpace),
      (NodeSpace.check_call r c).2 = (r, c) ∧
      NodeSpace.check_call (NodeSpace.check_call r c).2.1
          (NodeSpace.check_call r c).2.2 = NodeSpace.check_call r c) ∧
    (∀ re ce : EnvironmentSpace,
      (EnvironmentSpace.check_call re ce).2 = (re, ce) ∧
      EnvironmentSpace.check_call (EnvironmentSpace.check_call re ce).2.1
          (EnvironmentSpace.check_call re ce).2.2 =
        EnvironmentSpace.check_call re ce) :=
  ⟨fun _ _ => ⟨rfl, rfl⟩, fun _ _ => ⟨rfl, rfl⟩⟩

lemma map_disable_eq_self (l : List Feature) :
    (l.map fun f => { f with enabled := false }) = l ↔
      ∀ f ∈ l, f.enabled = false := by
  induction l with
  | nil => simp
  | cons a t ih =>
    simp only [List.map_cons, List.cons.injEq, List.mem_cons, ih]
    constructor
    · rintro ⟨h1, h2⟩ f hf
      rcases hf with rfl | hf
      · exact (congrArg Feature.enabled h1).symm
      · exact h2 f hf
    · intro h
      refine ⟨?_, fun f hf => h f (Or.inr hf)⟩
      have ha := h a (Or.inl rfl)
      cases a
      simp_all

/-- Counterexample to C10 as stated: a requirement whose excluded feature is
already disabled is observationally unchanged by `_generate_min_capability`
(the forced `enabled = False` writes are no-ops), although its excluded set
is non-empty. -/
theorem c10_counterexample :
    Except.map Prod.snd
        (nsExcludeDisabledRdma.generate_min_capability nsDefault) =
      .ok nsExcludeDisabledRdma ∧
    excludedCount nsExcludeDisabledRdma = 1 := ⟨rfl, rfl⟩

lemma gen_min_ok_components (r c : NodeSpace) (es : SetSpace)
    (hr : r.excluded_features = some es) (out rpost : NodeSpace)
    (hok : r.generate_min_capability c = .ok (out, rpost)) :
    rpost = { r with
      excluded_features :=
        some ⟨es.is_allow_set, es.items.map (fun f => { f with enabled := false })⟩ } ∧
    out.features =
      some ⟨true, ((r.features.map SetSpace.items).getD []) ++
        es.items.map (fun f => { f with enabled := false })⟩ := by
  rcases hf2 : r.features with _ | fs <;>
    · unfold NodeSpace.generate_min_capability at hok
      rw [hr, hf2] at hok
      simp only [] at hok
      repeat' split at hok
      all_goals try (exact Except.noConfusion hok)
      all_goals rw [Except.ok.injEq, Prod.mk.injEq] at hok
      all_goals obtain ⟨hout, hpost⟩ := hok
      all_goals subst hout
      all_goals subst hpost
      all_goals exact ⟨rfl, rfl⟩

/-- C10 amended: when `_generate_min_capability` returns on a requirement
with a declared excluded set, the requirement's post-call state has every
excluded feature's `enabled` set to false, those same disabled features all
appear in the returned node's `features` set, and the post-call requirement
differs from the input exactly when some excluded feature was enabled. -/
theorem c10_amended_excluded_mutation (r c : NodeSpace) (es : SetSpace)
    (hr : r.excluded_features = some es) (out rpost : NodeSpace)
    (hok : r.generate_min_capability c = .ok (out, rpost)) :
    rpost = { r with
      excluded_features :=
        some ⟨es.is_allow_set, es.items.map (fun f => { f with enabled := false })⟩ } ∧
    (∀ f ∈ es.items, ∃ fs : SetSpace, out.features = some fs ∧
      ({ f with enabled := false } : Feature) ∈ fs.items) ∧
    (rpost ≠ r ↔ ∃ f ∈ es.items, f.enabled = true) := by
  obtain ⟨hpost, hfeat⟩ := gen_min_ok_components r c es hr out rpost hok
  refine ⟨hpost, ?_, ?_⟩
  · intro f hf
    exact ⟨_, hfeat, List.mem_append_right _
      (List.mem_map_of_mem (fun g => { g with enabled := false }) hf)⟩
  · have hiff : (rpost = r) ↔
        ((es.items.map (fun f => { f with enabled := false })) = es.items) := by
      rw [hpost]
      constructor
      · intro he
        have h2 := congrArg NodeSpace.excluded_features he
        rw [hr] at h2
        simp only [Option.some.injEq] at h2
        exact congrArg SetSpace.items h2
      · intro he
        rw [he]
        have heta : (⟨es.is_allow_set, es.items⟩ : SetSpace) = es := rfl
        rw [heta, ← hr]
    rw [ne_eq, hiff, map_disable_eq_self]
    push_neg
    constructor
    · rintro ⟨f, hf, hne⟩
      exact ⟨f, hf, by simpa using hne⟩
    · rintro ⟨f, hf, htrue⟩
      exact ⟨f, hf, by simp [htrue]⟩

/-- Witness for C10 amended: an enabled excluded feature makes the post-call
requirement differ from the input. -/
theorem c10_witness : nsExcludeRdmaPost ≠ nsExcludeRdma :=
  (c10_amended_excluded_mutation nsExcludeRdma nsDefault
      ⟨false, [⟨"RDMA", true, false⟩]⟩ rfl nsMinOutRdma nsExcludeRdmaPost
      rfl).2.2.mpr ⟨⟨"RDMA", true, false⟩, by simp, rfl⟩
